import Mathlib

/-!
Verification of the clipov upload / analysis pipeline.

Shallow embedding of the pure decision logic of the route handlers and
workers of the clipov repository:

* upload finalize route (chunk verification, compose, session lifecycle)
* upload progress route (completed / failed chunk index sets)
* upload resume route (storage-authoritative chunk re-derivation)
* analysis trigger route (progress persists, batching, aggregate status)
* VideoSegmenter.segmentVideo (fixed 5-second segmentation)
* SelfHostedVisualAnalyzer.callVisualAnalysisService (retry policy)

External effects (Firestore, Cloud Storage, the inference service) are
abstracted as inputs: object existence as a predicate on chunk index,
service responses as a function from attempt number to a response value,
and each Firestore write as a record in the handler result.
-/

namespace Clipov

/-- jsRound models the JavaScript call of rounding a nonnegative number,
spelled there as rounding half up: the floor of the value plus one half. -/
def jsRound (q : ℚ) : ℤ := ⌊q + 1/2⌋

/-- startsWithChars l sub is true when sub is an initial run of l. -/
def startsWithChars : List Char → List Char → Bool
  | _, [] => true
  | [], _ :: _ => false
  | a :: l, b :: m => a == b && startsWithChars l m

/-- containsChars l sub is true when sub occurs contiguously somewhere in l,
the semantics of the JavaScript includes call on strings. -/
def containsChars : List Char → List Char → Bool
  | [], sub => startsWithChars [] sub
  | a :: l, sub => startsWithChars (a :: l) sub || containsChars l sub

/-- lowerChar maps an ASCII uppercase letter to lowercase, as toLowerCase
does on the ASCII range used by the error keywords. -/
def lowerChar (c : Char) : Char :=
  if 65 ≤ c.toNat && c.toNat ≤ 90 then Char.ofNat (c.toNat + 32) else c

/-- lowerChars lowercases every character of a list. -/
def lowerChars (l : List Char) : List Char := l.map lowerChar

/-- strIncludes s sub is the JavaScript test of whether sub occurs in s. -/
def strIncludes (s sub : String) : Bool := containsChars s.data sub.data

/-- toLowerStr lowercases a string, ASCII range. -/
def toLowerStr (s : String) : String := (lowerChars s.data).asString

-- Status and label string constants, exactly the literals of the source.

def stAssembling : String := "assembling"
def stCompleted : String := "completed"
def stFailed : String := "failed"
def stUploaded : String := "uploaded"
def stResuming : String := "resuming"
def stReadyToFinalize : String := "ready_to_finalize"
def stExpired : String := "expired"
def stAnalysisComplete : String := "analysis_complete"
def stAnalysisPartOk : String := "analysis_partial"
def stAnalysisFailed : String := "analysis_failed"

namespace UploadFinalize

/-- SessionDoc carries the upload-session fields the finalize route reads
and writes: owner, file name, expected chunk count, lifecycle status and
the video id recorded once finalize succeeded. -/
structure SessionDoc where
  userId : String
  fileName : String
  totalChunks : Nat
  status : String
  videoId : Option String
deriving DecidableEq

/-- FinalizeResponse collects the observable outcome of one finalize call:
the HTTP status and success flag of the response, the missing chunk list
reported on abort, the video id returned on success, the session document
as left in the database, and how many compose calls were issued. -/
structure FinalizeResponse where
  httpStatus : Nat
  success : Bool
  missingChunks : List Nat
  videoId : Option String
  session : SessionDoc
  composeCalls : Nat
deriving DecidableEq

/-- POST is the finalize handler after authentication and ownership checks:
it marks the session assembling, verifies every expected chunk index
against real object existence, aborts with the missing list when any is
absent, otherwise composes the chunks (at most one compose per call),
creates the video and marks the session completed with a fresh video id.
chunkExists is storage truth, composeOk whether the compose call succeeds,
freshVideoId the uuid generated for this call. -/
def POST (session : SessionDoc) (chunkExists : Nat → Bool) (composeOk : Bool)
    (freshVideoId : String) : FinalizeResponse :=
  let assembling : SessionDoc := { session with status := stAssembling }
  let missingChunks := (List.range session.totalChunks).filter (fun i => !(chunkExists i))
  if missingChunks.isEmpty then
    if composeOk then
      { httpStatus := 200, success := true, missingChunks := []
        videoId := some freshVideoId
        session := { assembling with status := stCompleted, videoId := some freshVideoId }
        composeCalls := 1 }
    else
      { httpStatus := 500, success := false, missingChunks := []
        videoId := none
        session := { assembling with status := stFailed }
        composeCalls := 1 }
  else
    { httpStatus := 400, success := false, missingChunks := missingChunks
      videoId := none, session := assembling, composeCalls := 0 }

end UploadFinalize

namespace UploadProgress

/-- reportChunk is the chunk-progress handler core: the pair of completed
and failed chunk index lists, updated by one report of (chunkIndex, status).
A completed report appends the index to the completed list when absent and
filters it out of the failed list; a failed report does the mirror image;
any other status leaves both lists unchanged. -/
def reportChunk (st : List Nat × List Nat) (report : Nat × String) :
    List Nat × List Nat :=
  let chunksCompleted := st.1
  let chunksFailed := st.2
  let chunkIndex := report.1
  let status := report.2
  if status = stCompleted then
    (if chunkIndex ∈ chunksCompleted then chunksCompleted
     else chunksCompleted ++ [chunkIndex],
     chunksFailed.filter (fun idx => idx != chunkIndex))
  else if status = stFailed then
    (chunksCompleted.filter (fun idx => idx != chunkIndex),
     if chunkIndex ∈ chunksFailed then chunksFailed
     else chunksFailed ++ [chunkIndex])
  else
    (chunksCompleted, chunksFailed)

end UploadProgress

namespace UploadResume

/-- SessionDoc carries the resume-relevant session fields, including the
stored completed / failed counters, which may be stale, and whether the
absolute expiry has passed. -/
structure SessionDoc where
  userId : String
  totalChunks : Nat
  chunksCompleted : List Nat
  chunksFailed : List Nat
  expired : Bool
deriving DecidableEq

/-- ResumeResponse is the observable outcome of one resume call: existing
and missing chunk indices as recomputed against storage, the indices for
which a fresh signed write URL was issued, the recomputed progress and the
derived resumability status. -/
structure ResumeResponse where
  success : Bool
  httpStatus : Nat
  existingChunks : List Nat
  missingChunks : List Nat
  chunkUrls : List Nat
  progress : ℤ
  status : String
deriving DecidableEq

/-- POST is the resume handler after authentication and ownership checks:
it rejects an expired session, otherwise re-derives existing and missing
chunks by checking real object existence for every index, issues one fresh
signed URL per missing index and none for existing ones, and derives the
progress and resumability status from the recomputed sets. The stored
counters on the session document are never consulted. -/
def POST (session : SessionDoc) (chunkExists : Nat → Bool) : ResumeResponse :=
  if session.expired then
    { success := false, httpStatus := 410, existingChunks := []
      missingChunks := [], chunkUrls := [], progress := 0, status := stExpired }
  else
    let existingChunks := (List.range session.totalChunks).filter (fun i => chunkExists i)
    let missingChunks := (List.range session.totalChunks).filter (fun i => !(chunkExists i))
    let chunkUrls := missingChunks
    { success := true, httpStatus := 200, existingChunks := existingChunks
      missingChunks := missingChunks, chunkUrls := chunkUrls
      progress := jsRound ((existingChunks.length : ℚ) / session.totalChunks * 100)
      status := if existingChunks.length = session.totalChunks then stReadyToFinalize
                else stResuming }

end UploadResume

namespace VideoSegmenter

/-- VideoSegment is one produced segment: 1-based number, start and end
offsets in seconds and its duration. -/
structure VideoSegment where
  segmentNumber : Nat
  startTime : ℚ
  endTime : ℚ
  duration : ℚ
deriving DecidableEq

/-- segmentVideo splits a video of the given probed duration into 5-second
segments: the segment count is the ceiling of duration over 5, segment i
(0-based loop index) starts at i*5, ends at the minimum of (i+1)*5 and the
duration, and is numbered i+1. -/
def segmentVideo (duration : ℚ) : List VideoSegment :=
  (List.range (⌈duration / 5⌉).toNat).map (fun (i : Nat) =>
    let startTime : ℚ := (i : ℚ) * 5
    let endTime : ℚ := min (((i : ℚ) + 1) * 5) duration
    { segmentNumber := i + 1, startTime := startTime, endTime := endTime
      duration := endTime - startTime })

end VideoSegmenter

namespace AnalysisTrigger

/-- SEGMENT_DURATION is the 30-second planning length of the trigger route. -/
def SEGMENT_DURATION : ℚ := 30

/-- segmentCount is the expected segment count persisted onto the Video
record during planning: ceiling of the probed duration over 30 seconds. -/
def segmentCount (duration : ℚ) : Nat := (⌈duration / SEGMENT_DURATION⌉).toNat

/-- PARALLEL_LIMIT bounds how many segments are analyzed concurrently. -/
def PARALLEL_LIMIT : Nat := 2

/-- SegOutcome is what one segment contributes to the run: its analysis
call pair succeeded and its database save succeeded, its analysis failed
after retries, or its analysis succeeded but the save failed. -/
inductive SegOutcome where
  | ok : SegOutcome
  | analysisFailed : SegOutcome
  | saveFailed : SegOutcome
deriving DecidableEq

/-- RunCounters are the three orchestrator counters of the parallel stage. -/
structure RunCounters where
  completedSegments : Nat
  successfulSegments : Nat
  failedSegments : Nat
deriving DecidableEq

/-- recordResult applies one segment result to the counters: a failure of
either kind increments the failed counter, a success the successful one;
no outcome raises out of the loop. -/
def recordResult (c : RunCounters) (o : SegOutcome) : RunCounters :=
  match o with
  | SegOutcome.ok =>
      { c with successfulSegments := c.successfulSegments + 1 }
  | SegOutcome.analysisFailed =>
      { c with failedSegments := c.failedSegments + 1 }
  | SegOutcome.saveFailed =>
      { c with failedSegments := c.failedSegments + 1 }

/-- sliceChunks cuts a list into consecutive slices of size k, the loop
that advances by PARALLEL_LIMIT and pushes slice(i, i + PARALLEL_LIMIT). -/
def sliceChunks : Nat → List SegOutcome → List (List SegOutcome)
  | _, [] => []
  | 0, _ :: _ => []
  | k+1, x :: xs => ((x :: xs).take (k+1)) :: sliceChunks (k+1) (xs.drop k)
termination_by _ l => l.length
decreasing_by simp [List.length_drop]; omega

/-- segmentChunks partitions the segments into batches of PARALLEL_LIMIT. -/
def segmentChunks (segments : List SegOutcome) : List (List SegOutcome) :=
  sliceChunks PARALLEL_LIMIT segments

/-- processChunk handles one batch: every segment of the batch is recorded
into the counters and the completed counter advances by the batch size. -/
def processChunk (c : RunCounters) (chunk : List SegOutcome) : RunCounters :=
  let afterUpdates := chunk.foldl recordResult c
  { afterUpdates with
      completedSegments := afterUpdates.completedSegments + chunk.length }

/-- processRun runs the whole parallel-analysis stage: batches processed in
order from zeroed counters. -/
def processRun (outcomes : List SegOutcome) : RunCounters :=
  (segmentChunks outcomes).foldl processChunk
    { completedSegments := 0, successfulSegments := 0, failedSegments := 0 }

/-- successRate is the aggregate success ratio of the run. -/
def successRate (successfulSegments segmentsLength : Nat) : ℚ :=
  (successfulSegments : ℚ) / segmentsLength

/-- finalStatusOf chooses the final Video status from the success rate:
at least 90 percent is fully complete, at least 50 percent partially
complete, anything lower failed. -/
def finalStatusOf (successfulSegments segmentsLength : Nat) : String :=
  if successRate successfulSegments segmentsLength ≥ 9/10 then stAnalysisComplete
  else if successRate successfulSegments segmentsLength ≥ 1/2 then stAnalysisPartOk
  else stAnalysisFailed

/-- batchProgress is the progress persisted at the start of a batch:
seventy plus the rounded fraction of batches already done, scaled to the
twenty-five points of the parallel stage. -/
def batchProgress (chunkIndex numChunks : Nat) : ℤ :=
  70 + jsRound ((chunkIndex : ℚ) / numChunks * 25)

/-- VideoDocUpdate is one Firestore write to the Video document, restricted
to the three progress-contract fields; a field is none when the write does
not touch it. -/
structure VideoDocUpdate where
  analysisProgress : Option ℤ
  currentStep : Option String
  stepDetails : Option String
deriving DecidableEq

def lblStart : String := "Initializing analysis..."
def detStart : String := "Setting up video processing pipeline"
def lblDownload : String := "Downloading video"
def detDownload : String := "Retrieving video file from cloud storage"
def lblValidate : String := "Validating video"
def detValidate : String := "Checking video format and extracting metadata"
def lblStandardize : String := "Standardizing video"
def detStandardize : String := "Converting to standard format"
def lblAudio : String := "Extracting audio"
def detAudio : String := "Converting video audio to WAV format for speech analysis"
def lblPlan : String := "Planning segmentation (Speed Optimized)"
def detPlan : String := "Will create segments of 30 seconds each for faster processing"
def lblSegment : String := "Creating video segments"
def detSegment : String := "Splitting video into optimized 30s segments for faster analysis"
def lblVerify : String := "Verifying segment availability"
def detVerify : String := "Ensuring all segments are ready for AI analysis"
def lblStore : String := "Storing segment metadata"
def detStore : String := "Saving segment records to database"
def lblAiInit : String := "Initializing AI services"
def detAiInit : String := "Setting up self-hosted AI service (Whisper + YOLO + CLIP)"
def lblAi : String := "AI Analysis (Self-Hosted Parallel Processing)"
def detAi : String := "Running parallel self-hosted AI analysis on segments"
def detBatch : String := "Parallel processing batch"
def lblDoneFull : String := "Analysis complete"
def lblDonePart : String := "Analysis partially complete"
def lblDoneFail : String := "Analysis failed"
def detDone : String := "Analyzed segments: successful and failed counts with success rate"

/-- finalStepLabel is the final currentStep chosen from the final status. -/
def finalStepLabel (fs : String) : String :=
  if fs = stAnalysisComplete then lblDoneFull
  else if fs = stAnalysisPartOk then lblDonePart
  else lblDoneFail

/-- stageUpdates is the fixed prefix of Video-document writes of one
successful run, from the trigger response through the sequential stages.
Interpolated counts inside detail strings are elided; the fourth write is
the metadata write, which touches none of the three progress fields. -/
def stageUpdates : List VideoDocUpdate :=
  [ { analysisProgress := some 0, currentStep := some lblStart, stepDetails := some detStart },
    { analysisProgress := some 5, currentStep := some lblDownload, stepDetails := some detDownload },
    { analysisProgress := some 10, currentStep := some lblValidate, stepDetails := some detValidate },
    { analysisProgress := none, currentStep := none, stepDetails := none },
    { analysisProgress := some 15, currentStep := some lblStandardize, stepDetails := some detStandardize },
    { analysisProgress := some 18, currentStep := some lblAudio, stepDetails := some detAudio },
    { analysisProgress := some 20, currentStep := some lblPlan, stepDetails := some detPlan },
    { analysisProgress := some 25, currentStep := some lblSegment, stepDetails := some detSegment },
    { analysisProgress := some 35, currentStep := some lblVerify, stepDetails := some detVerify },
    { analysisProgress := some 40, currentStep := none, stepDetails := none },
    { analysisProgress := some 45, currentStep := some lblStore, stepDetails := some detStore },
    { analysisProgress := some 60, currentStep := none, stepDetails := none },
    { analysisProgress := some 65, currentStep := some lblAiInit, stepDetails := some detAiInit },
    { analysisProgress := some 70, currentStep := none, stepDetails := none },
    { analysisProgress := some 70, currentStep := some lblAi, stepDetails := some detAi } ]

/-- analysisUpdates is the chronological sequence of Video-document writes
of one successful run: the fixed stage persists, then one persist per
batch (numBatches of them), then the final 100 percent persist; fs is the
computed final status. -/
def analysisUpdates (numBatches : Nat) (fs : String) : List VideoDocUpdate :=
  stageUpdates
  ++ (List.range numBatches).map (fun chunkIndex =>
      { analysisProgress := some (batchProgress chunkIndex numBatches)
        currentStep := none, stepDetails := some detBatch })
  ++ [ { analysisProgress := some 100, currentStep := some (finalStepLabel fs)
         stepDetails := some detDone } ]

end AnalysisTrigger

namespace SelfHostedVisualAnalyzer

/-- maxRetries is the fixed attempt ceiling of the visual-service call. -/
def maxRetries : Nat := 3

/-- baseDelay is the base backoff delay in milliseconds. -/
def baseDelay : Nat := 2000

/-- backoffDelay is the exponential backoff before the retry that follows
the given attempt: baseDelay times two to the attempt minus one. -/
def backoffDelay (attempt : Nat) : Nat := baseDelay * 2 ^ (attempt - 1)

/-- SvcResponse is the observable outcome of one attempt against the
inference service: an OK response, a non-OK HTTP response with status
code, status text and error body text, or a thrown network-level error
with its message. -/
inductive SvcResponse where
  | httpOk : SvcResponse
  | httpErr : Nat → String → String → SvcResponse
  | netErr : String → SvcResponse
deriving DecidableEq

def kwServerErr : String := "server encountered an error"
def kwTryAgain : String := "try again in 30 seconds"
def kwTempUnavail : String := "temporarily unavailable"
def kwTimeoutWord : String := "timeout"
def kwNetworkWord : String := "network"
def kwEconnreset : String := "econnreset"
def kwEnotfound : String := "enotfound"
def kwAborted : String := "aborted"
def kwFetchWord : String := "fetch"
def msgSvcStatus : String := "AI service responded with status "
def msgColon : String := ": "

/-- isRetryableError classifies a non-OK HTTP response: the five listed
status codes are retryable, as is any body text carrying one of the four
transient-failure phrases. -/
def isRetryableError (status : Nat) (errorText : String) : Bool :=
  (status = 500 || status = 502 || status = 503 || status = 504 || status = 429) ||
  (strIncludes errorText kwServerErr ||
   strIncludes errorText kwTryAgain ||
   strIncludes errorText kwTempUnavail ||
   strIncludes errorText kwTimeoutWord)

/-- isRetryableNetworkError classifies a thrown error by keywords of its
lowercased message. -/
def isRetryableNetworkError (message : String) : Bool :=
  let m := toLowerStr message
  strIncludes m kwTimeoutWord ||
  strIncludes m kwNetworkWord ||
  strIncludes m kwEconnreset ||
  strIncludes m kwEnotfound ||
  strIncludes m kwAborted ||
  strIncludes m kwFetchWord

/-- httpThrowMsg is the message of the error thrown for a non-OK response
that was not retried in place. -/
def httpThrowMsg (status : Nat) (statusText : String) : String :=
  msgSvcStatus ++ toString status ++ msgColon ++ statusText

/-- CallTrace is the observable behaviour of one whole service call:
whether it returned a result, how many attempts were made, and the
backoff delays that were awaited between attempts. -/
structure CallTrace where
  succeeded : Bool
  attemptsMade : Nat
  delays : List Nat
deriving DecidableEq

/-- callLoop is the attempt loop of callVisualAnalysisService. The fuel
argument counts the loop iterations left (the loop runs attempt = 1 up to
maxRetries); responses gives the service outcome of each attempt. A non-OK
response is retried with backoff when retryable and attempts remain,
otherwise an error is thrown; the catch block retries with backoff when
the thrown message looks network-transient and attempts remain, rethrows
on the last attempt, and otherwise falls through so the loop continues at
once with no delay. -/
def callLoop (responses : Nat → SvcResponse) :
    Nat → Nat → List Nat → CallTrace
  | 0, attempt, delays => { succeeded := false, attemptsMade := attempt - 1, delays := delays }
  | fuel+1, attempt, delays =>
    match responses attempt with
    | SvcResponse.httpOk =>
        { succeeded := true, attemptsMade := attempt, delays := delays }
    | SvcResponse.httpErr status statusText errorText =>
        if isRetryableError status errorText && decide (attempt < maxRetries) then
          callLoop responses fuel (attempt+1) (delays ++ [backoffDelay attempt])
        else
          if isRetryableNetworkError (httpThrowMsg status statusText)
              && decide (attempt < maxRetries) then
            callLoop responses fuel (attempt+1) (delays ++ [backoffDelay attempt])
          else if attempt = maxRetries then
            { succeeded := false, attemptsMade := attempt, delays := delays }
          else
            callLoop responses fuel (attempt+1) delays
    | SvcResponse.netErr message =>
        if isRetryableNetworkError message && decide (attempt < maxRetries) then
          callLoop responses fuel (attempt+1) (delays ++ [backoffDelay attempt])
        else if attempt = maxRetries then
          { succeeded := false, attemptsMade := attempt, delays := delays }
        else
          callLoop responses fuel (attempt+1) delays

/-- callVisualAnalysisService runs the attempt loop from attempt one. -/
def callVisualAnalysisService (responses : Nat → SvcResponse) : CallTrace :=
  callLoop responses maxRetries 1 []

end SelfHostedVisualAnalyzer

-- Concrete inputs used by counterexamples and witnesses.

def uidA : String := "user-a"
def fnA : String := "clip.mp4"
def vidOne : String := "video-1"
def vidTwo : String := "video-2"
def txtBadRequest : String := "Bad Request"
def txtInternalErr : String := "Internal Server Error"

/-- sessCompletedOnce is a finalize session that has already completed,
with its first video id recorded. -/
def sessCompletedOnce : UploadFinalize.SessionDoc :=
  { userId := uidA, fileName := fnA, totalChunks := 2
    status := stCompleted, videoId := some vidOne }

/-- sessMissingChunk is a two-chunk finalize session of which only chunk 1
is present in storage when finalize runs (via existsOnlyOne). -/
def sessMissingChunk : UploadFinalize.SessionDoc :=
  { userId := uidA, fileName := fnA, totalChunks := 2
    status := stUploaded, videoId := none }

/-- existsOnlyOne is storage truth with only chunk index 1 present. -/
def existsOnlyOne : Nat → Bool := fun i => i == 1

/-- sessStale is a resume session whose stored counters claim all three
chunks completed, though storage only holds chunk 1. -/
def sessStale : UploadResume.SessionDoc :=
  { userId := uidA, totalChunks := 3, chunksCompleted := [0, 1, 2]
    chunksFailed := [], expired := false }


/-- C1 counterexample: re-finalizing the already-completed session
sessCompletedOnce issues another compose call and returns a video id
different from the one recorded at the first finalize, so finalize is not
a no-op on completed sessions. -/
theorem finalize_completed_rerun_not_noop :
    (UploadFinalize.POST sessCompletedOnce (fun _ => true) true vidTwo).videoId ≠ some vidOne
    ∧ (UploadFinalize.POST sessCompletedOnce (fun _ => true) true vidTwo).composeCalls = 1 := by
  decide

/-- C1 (corrected): the finalize handler has no completed-session guard: a
finalize call on a session in any status, in particular one already
completed, re-verifies the chunks and, when all are present and compose
succeeds, attempts compose once more and returns the freshly generated
video id rather than the stored one; within one finalize call compose is
attempted at most once. -/
theorem finalize_rerun_attempts_compose
    (s : UploadFinalize.SessionDoc) (ex : Nat → Bool) (v : String)
    (hstatus : s.status = stCompleted)
    (hall : ∀ i, i < s.totalChunks → ex i = true) :
    (UploadFinalize.POST s ex true v).videoId = some v
    ∧ (UploadFinalize.POST s ex true v).composeCalls = 1
    ∧ ∀ (s2 : UploadFinalize.SessionDoc) (ex2 : Nat → Bool) (ok2 : Bool) (v2 : String),
        (UploadFinalize.POST s2 ex2 ok2 v2).composeCalls ≤ 1 := by
  have hm : (List.range s.totalChunks).filter (fun i => !(ex i)) = [] := by
    rw [List.filter_eq_nil]
    intro i hi
    simp [hall i (List.mem_range.mp hi)]
  refine ⟨?_, ?_, ?_⟩
  · simp [UploadFinalize.POST, hm]
  · simp [UploadFinalize.POST, hm]
  · intro s2 ex2 ok2 v2
    simp only [UploadFinalize.POST]
    split_ifs <;> simp

/-- C1 witness: the corrected behaviour at the concrete completed session. -/
theorem finalize_rerun_attempts_compose_witness :
    (UploadFinalize.POST sessCompletedOnce (fun _ => true) true vidTwo).videoId = some vidTwo :=
  (finalize_rerun_attempts_compose sessCompletedOnce (fun _ => true) vidTwo rfl
    (fun _ _ => rfl)).1

/-- C2 counterexample: finalize on sessMissingChunk, with chunk 0 absent
from storage, aborts before compose and lists the missing index, but the
session is left in status assembling, not failed. -/
theorem finalize_missing_not_marked_failed :
    (UploadFinalize.POST sessMissingChunk existsOnlyOne true vidOne).session.status ≠ stFailed
    ∧ (UploadFinalize.POST sessMissingChunk existsOnlyOne true vidOne).missingChunks = [0]
    ∧ (UploadFinalize.POST sessMissingChunk existsOnlyOne true vidOne).composeCalls = 0 := by
  decide

/-- C2 (corrected): when any expected chunk index is absent from storage
the finalize operation aborts before any compose is attempted, responds
with HTTP 400 listing exactly the missing chunk indices, and leaves the
session in status assembling (the session is marked failed only when the
compose call itself fails). -/
theorem finalize_missing_aborts_before_compose
    (s : UploadFinalize.SessionDoc) (ex : Nat → Bool) (ok : Bool) (v : String)
    (hmiss : (List.range s.totalChunks).filter (fun i => !(ex i)) ≠ []) :
    (UploadFinalize.POST s ex ok v).composeCalls = 0
    ∧ (UploadFinalize.POST s ex ok v).missingChunks
        = (List.range s.totalChunks).filter (fun i => !(ex i))
    ∧ (UploadFinalize.POST s ex ok v).httpStatus = 400
    ∧ (UploadFinalize.POST s ex ok v).session.status = stAssembling := by
  have h : ((List.range s.totalChunks).filter (fun i => !(ex i))).isEmpty = false := by
    cases hh : (List.range s.totalChunks).filter (fun i => !(ex i)) with
    | nil => exact absurd hh hmiss
    | cons a l => rfl
  refine ⟨?_, ?_, ?_, ?_⟩ <;> simp [UploadFinalize.POST, h]

/-- C2 witness: the corrected behaviour at the concrete missing-chunk
session. -/
theorem finalize_missing_aborts_witness :
    (UploadFinalize.POST sessMissingChunk existsOnlyOne true vidOne).composeCalls = 0 :=
  (finalize_missing_aborts_before_compose sessMissingChunk existsOnlyOne true vidOne
    (by decide)).1

/-- C3: the final Video status is chosen by the success rate s/n with
inclusive thresholds: at least 9/10 gives analysis_complete, at least 1/2
gives analysis_partial, anything lower analysis_failed; with 10 segments,
9 successes give complete, 8 and 6 and 5 give partial, 4 gives failed. -/
theorem aggregate_status_by_success_rate (s n : Nat) :
    (AnalysisTrigger.successRate s n ≥ 9/10 →
       AnalysisTrigger.finalStatusOf s n = stAnalysisComplete)
    ∧ (¬ AnalysisTrigger.successRate s n ≥ 9/10 →
       AnalysisTrigger.successRate s n ≥ 1/2 →
       AnalysisTrigger.finalStatusOf s n = stAnalysisPartOk)
    ∧ (¬ AnalysisTrigger.successRate s n ≥ 1/2 →
       AnalysisTrigger.finalStatusOf s n = stAnalysisFailed)
    ∧ AnalysisTrigger.finalStatusOf 9 10 = stAnalysisComplete
    ∧ AnalysisTrigger.finalStatusOf 8 10 = stAnalysisPartOk
    ∧ AnalysisTrigger.finalStatusOf 6 10 = stAnalysisPartOk
    ∧ AnalysisTrigger.finalStatusOf 5 10 = stAnalysisPartOk
    ∧ AnalysisTrigger.finalStatusOf 4 10 = stAnalysisFailed := by
  refine ⟨?_, ?_, ?_, ?_, ?_, ?_, ?_, ?_⟩
  · intro h
    simp only [AnalysisTrigger.finalStatusOf, if_pos h]
  · intro h1 h2
    simp only [AnalysisTrigger.finalStatusOf, if_neg h1, if_pos h2]
  · intro h2
    have h1 : ¬ AnalysisTrigger.successRate s n ≥ 9/10 := fun hc =>
      h2 (le_trans (by norm_num) hc)
    simp only [AnalysisTrigger.finalStatusOf, if_neg h1, if_neg h2]
  · norm_num [AnalysisTrigger.finalStatusOf, AnalysisTrigger.successRate]
  · norm_num [AnalysisTrigger.finalStatusOf, AnalysisTrigger.successRate]
  · norm_num [AnalysisTrigger.finalStatusOf, AnalysisTrigger.successRate]
  · norm_num [AnalysisTrigger.finalStatusOf, AnalysisTrigger.successRate]
  · norm_num [AnalysisTrigger.finalStatusOf, AnalysisTrigger.successRate]

/-- C3 witness: the 90 percent boundary is inclusive at 9 of 10. -/
theorem aggregate_status_witness :
    AnalysisTrigger.finalStatusOf 9 10 = stAnalysisComplete :=
  (aggregate_status_by_success_rate 9 10).1
    (by norm_num [AnalysisTrigger.successRate])


-- Helper lemmas for the parallel-analysis counters (C4).

theorem foldl_recordResult (chunk : List AnalysisTrigger.SegOutcome)
    (c : AnalysisTrigger.RunCounters) :
    chunk.foldl AnalysisTrigger.recordResult c =
      { completedSegments := c.completedSegments
        successfulSegments := c.successfulSegments +
          chunk.countP (fun o => decide (o = AnalysisTrigger.SegOutcome.ok))
        failedSegments := c.failedSegments +
          chunk.countP (fun o => !(decide (o = AnalysisTrigger.SegOutcome.ok))) } := by
  induction chunk generalizing c with
  | nil => simp
  | cons o l ih =>
      cases o <;>
        simp [AnalysisTrigger.recordResult, ih, List.countP_cons,
          AnalysisTrigger.RunCounters.mk.injEq] <;>
        omega

theorem processChunk_spec (c : AnalysisTrigger.RunCounters)
    (chunk : List AnalysisTrigger.SegOutcome) :
    AnalysisTrigger.processChunk c chunk =
      { completedSegments := c.completedSegments + chunk.length
        successfulSegments := c.successfulSegments +
          chunk.countP (fun o => decide (o = AnalysisTrigger.SegOutcome.ok))
        failedSegments := c.failedSegments +
          chunk.countP (fun o => !(decide (o = AnalysisTrigger.SegOutcome.ok))) } := by
  simp [AnalysisTrigger.processChunk, foldl_recordResult]

theorem sliceChunks_flatten (k : Nat) (l : List AnalysisTrigger.SegOutcome)
    (hk : k ≠ 0) : (AnalysisTrigger.sliceChunks k l).flatten = l := by
  induction k, l using AnalysisTrigger.sliceChunks.induct with
  | case1 => simp [AnalysisTrigger.sliceChunks]
  | case2 => exact absurd rfl hk
  | case3 k x xs ih =>
      simp only [AnalysisTrigger.sliceChunks, List.flatten_cons]
      rw [ih (Nat.succ_ne_zero k), List.take_succ_cons, List.cons_append,
        List.take_append_drop]

theorem foldl_processChunk (chunks : List (List AnalysisTrigger.SegOutcome))
    (c : AnalysisTrigger.RunCounters) :
    chunks.foldl AnalysisTrigger.processChunk c =
      { completedSegments := c.completedSegments + chunks.flatten.length
        successfulSegments := c.successfulSegments +
          chunks.flatten.countP (fun o => decide (o = AnalysisTrigger.SegOutcome.ok))
        failedSegments := c.failedSegments +
          chunks.flatten.countP
            (fun o => !(decide (o = AnalysisTrigger.SegOutcome.ok))) } := by
  induction chunks generalizing c with
  | nil => simp
  | cons chunk rest ih =>
      simp [List.foldl_cons, processChunk_spec, ih, List.countP_append,
        AnalysisTrigger.RunCounters.mk.injEq]
      omega

/-- C4: over any sequence of per-segment outcomes the parallel stage
processes every segment (the completed counter reaches the total even when
some segments fail, so failures abort neither their batch nor later
batches), the failed counter counts exactly the segments whose analysis or
save failed, and the successful counter the rest. -/
theorem parallel_failures_absorbed (outcomes : List AnalysisTrigger.SegOutcome) :
    (AnalysisTrigger.processRun outcomes).completedSegments = outcomes.length
    ∧ (AnalysisTrigger.processRun outcomes).successfulSegments =
        outcomes.countP (fun o => decide (o = AnalysisTrigger.SegOutcome.ok))
    ∧ (AnalysisTrigger.processRun outcomes).failedSegments =
        outcomes.countP (fun o => !(decide (o = AnalysisTrigger.SegOutcome.ok))) := by
  have hf : (AnalysisTrigger.segmentChunks outcomes).flatten = outcomes :=
    sliceChunks_flatten AnalysisTrigger.PARALLEL_LIMIT outcomes (by decide)
  simp [AnalysisTrigger.processRun, foldl_processChunk, hf]

-- Helper lemma for chunk-complement lengths (C6).

theorem length_filter_add_length_filter_not (p : Nat → Bool) (l : List Nat) :
    (l.filter p).length + (l.filter (fun a => !(p a))).length = l.length := by
  induction l with
  | nil => rfl
  | cons a l ih =>
      by_cases h : p a = true
      · simp only [List.filter, h, Bool.not_true, List.length_cons]
        omega
      · simp only [Bool.not_eq_true] at h
        simp only [List.filter, h, Bool.not_false, List.length_cons]
        omega

/-- C6: on a non-expired session, resume recomputes the existing and
missing chunk indices from real object existence, issues exactly one fresh
URL per missing index (so totalChunks minus the number of existing ones)
and none for an existing index, and the whole response is unchanged under
any stored completed / failed counters on the session document. -/
theorem resume_storage_authoritative
    (s : UploadResume.SessionDoc) (ex : Nat → Bool)
    (hexp : s.expired = false) :
    (UploadResume.POST s ex).existingChunks
        = (List.range s.totalChunks).filter (fun i => ex i)
    ∧ (UploadResume.POST s ex).missingChunks
        = (List.range s.totalChunks).filter (fun i => !(ex i))
    ∧ (UploadResume.POST s ex).chunkUrls = (UploadResume.POST s ex).missingChunks
    ∧ (UploadResume.POST s ex).chunkUrls.length
        + (UploadResume.POST s ex).existingChunks.length = s.totalChunks
    ∧ (∀ i ∈ (UploadResume.POST s ex).existingChunks,
        i ∉ (UploadResume.POST s ex).chunkUrls)
    ∧ (∀ c f : List Nat,
        UploadResume.POST { s with chunksCompleted := c, chunksFailed := f } ex
          = UploadResume.POST s ex) := by
  refine ⟨?_, ?_, ?_, ?_, ?_, ?_⟩
  · simp [UploadResume.POST, hexp]
  · simp [UploadResume.POST, hexp]
  · simp [UploadResume.POST, hexp]
  · simp only [UploadResume.POST, hexp, Bool.false_eq_true, if_false]
    rw [Nat.add_comm]
    simpa using length_filter_add_length_filter_not (fun i => ex i)
      (List.range s.totalChunks)
  · simp only [UploadResume.POST, hexp, Bool.false_eq_true, if_false]
    intro i hi hmem
    simp only [List.mem_filter] at hi hmem
    rw [hi.2] at hmem
    simp at hmem
  · intro c f
    rfl

/-- C6 witness: with stale counters claiming all three chunks done but
only chunk 1 actually in storage, resume issues two fresh URLs. -/
theorem resume_storage_authoritative_witness :
    (UploadResume.POST sessStale existsOnlyOne).chunkUrls.length
      + (UploadResume.POST sessStale existsOnlyOne).existingChunks.length
      = sessStale.totalChunks :=
  (resume_storage_authoritative sessStale existsOnlyOne rfl).2.2.2.1

-- Helper lemmas for progress-report sets (C7).

theorem reportChunk_disjoint (st : List Nat × List Nat) (report : Nat × String)
    (h : ∀ x, x ∈ st.1 → x ∉ st.2) :
    ∀ x, x ∈ (UploadProgress.reportChunk st report).1 →
      x ∉ (UploadProgress.reportChunk st report).2 := by
  rcases st with ⟨c, f⟩
  rcases report with ⟨idx, status⟩
  intro x
  by_cases h1 : status = stCompleted
  · by_cases hc : idx ∈ c
    · simp only [UploadProgress.reportChunk, if_pos h1, if_pos hc]
      intro hx hy
      exact h x hx (List.mem_filter.mp hy).1
    · simp only [UploadProgress.reportChunk, if_pos h1, if_neg hc]
      intro hx hy
      rcases List.mem_filter.mp hy with ⟨hyf, hyne⟩
      rcases List.mem_append.mp hx with hx | hx
      · exact h x hx hyf
      · simp only [List.mem_singleton] at hx
        subst hx
        simp at hyne
  · by_cases h2 : status = stFailed
    · by_cases hf : idx ∈ f
      · simp only [UploadProgress.reportChunk, if_neg h1, if_pos h2, if_pos hf]
        intro hx hy
        exact h x (List.mem_filter.mp hx).1 hy
      · simp only [UploadProgress.reportChunk, if_neg h1, if_pos h2, if_neg hf]
        intro hx hy
        rcases List.mem_filter.mp hx with ⟨hxc, hxne⟩
        rcases List.mem_append.mp hy with hy | hy
        · exact h x hxc hy
        · simp only [List.mem_singleton] at hy
          subst hy
          simp at hxne
    · simp only [UploadProgress.reportChunk, if_neg h1, if_neg h2]
      exact h x

theorem foldl_reportChunk_disjoint (reports : List (Nat × String))
    (st : List Nat × List Nat) (h : ∀ x, x ∈ st.1 → x ∉ st.2) :
    ∀ x, x ∈ (reports.foldl UploadProgress.reportChunk st).1 →
      x ∉ (reports.foldl UploadProgress.reportChunk st).2 := by
  induction reports generalizing st with
  | nil => exact h
  | cons r rest ih =>
      exact ih (UploadProgress.reportChunk st r) (reportChunk_disjoint st r h)

/-- C7: from empty completed and failed sets, any sequence of chunk
progress reports (any indices, any statuses, repetitions allowed) leaves
the two sets disjoint, and repeating a report on the state it produced
changes nothing, so identical repeated reports are idempotent. -/
theorem progress_sets_disjoint_and_idempotent :
    (∀ reports : List (Nat × String),
       (reports.foldl UploadProgress.reportChunk ([], [])).1
         ∩ (reports.foldl UploadProgress.reportChunk ([], [])).2 = [])
    ∧ (∀ (st : List Nat × List Nat) (report : Nat × String),
       UploadProgress.reportChunk (UploadProgress.reportChunk st report) report
         = UploadProgress.reportChunk st report) := by
  constructor
  · intro reports
    refine List.inter_eq_nil_iff_disjoint.mpr ?_
    intro a ha
    exact foldl_reportChunk_disjoint reports ([], []) (by simp) a ha
  · intro st report
    rcases st with ⟨c, f⟩
    rcases report with ⟨idx, status⟩
    by_cases h1 : status = stCompleted
    · by_cases hc : idx ∈ c
      · simp only [UploadProgress.reportChunk, if_pos h1, if_pos hc, List.filter_filter]
        simp
      · have hmem : idx ∈ c ++ [idx] := by simp
        simp only [UploadProgress.reportChunk, if_pos h1, if_neg hc, if_pos hmem,
          List.filter_filter]
        simp
    · by_cases h2 : status = stFailed
      · by_cases hf : idx ∈ f
        · simp only [UploadProgress.reportChunk, if_neg h1, if_pos h2, if_pos hf,
            List.filter_filter]
          simp
        · have hmem : idx ∈ f ++ [idx] := by simp
          simp only [UploadProgress.reportChunk, if_neg h1, if_pos h2, if_neg hf,
            if_pos hmem, List.filter_filter]
          simp
      · simp only [UploadProgress.reportChunk, if_neg h1, if_neg h2]


-- Helper lemmas for the 5-second segmenter (C5, C10).

theorem segmentVideo_length (D : ℚ) :
    (VideoSegmenter.segmentVideo D).length = (⌈D / 5⌉).toNat := by
  simp [VideoSegmenter.segmentVideo]

theorem segmentVideo_getElem (D : ℚ) (i : Nat)
    (h : i < (VideoSegmenter.segmentVideo D).length) :
    (VideoSegmenter.segmentVideo D)[i] =
      { segmentNumber := i + 1, startTime := (i : ℚ) * 5
        endTime := min (((i : ℚ) + 1) * 5) D
        duration := min (((i : ℚ) + 1) * 5) D - (i : ℚ) * 5 } := by
  simp [VideoSegmenter.segmentVideo]

theorem ceil_cast_toNat (D : ℚ) (hD : 0 ≤ D / 5) :
    (((⌈D / 5⌉).toNat : ℕ) : ℚ) = ((⌈D / 5⌉ : ℤ) : ℚ) := by
  have h := Int.toNat_of_nonneg (Int.ceil_nonneg hD)
  exact_mod_cast congrArg (fun z : ℤ => (z : ℚ)) h

theorem le_five_mul_ceil (D : ℚ) : D ≤ 5 * ((⌈D / 5⌉ : ℤ) : ℚ) := by
  have h := Int.le_ceil (D / 5)
  rw [div_le_iff₀ (by norm_num : (0:ℚ) < 5)] at h
  linarith

theorem five_mul_ceil_sub_one_lt (D : ℚ) : 5 * (((⌈D / 5⌉ : ℤ) : ℚ) - 1) < D := by
  have h := Int.ceil_lt_add_one (D / 5)
  nlinarith

/-- C5: segmentVideo on a video of positive duration D produces exactly
the ceiling of D over 5 segments, numbered 1-based in time order, each
segment starting where the previous one ends, every non-final segment of
duration exactly 5, and the final segment of duration D minus 5 times
(ceil(D/5) minus 1). -/
theorem segmentVideo_segmentation_spec (D : ℚ) (hD : 0 < D) :
    (VideoSegmenter.segmentVideo D).length = (⌈D / 5⌉).toNat
    ∧ (∀ i (h : i < (VideoSegmenter.segmentVideo D).length),
        ((VideoSegmenter.segmentVideo D).get ⟨i, h⟩).segmentNumber = i + 1)
    ∧ (∀ i (h1 : i < (VideoSegmenter.segmentVideo D).length)
        (h2 : i + 1 < (VideoSegmenter.segmentVideo D).length),
        ((VideoSegmenter.segmentVideo D).get ⟨i + 1, h2⟩).startTime
          = ((VideoSegmenter.segmentVideo D).get ⟨i, h1⟩).endTime)
    ∧ (∀ i (h1 : i < (VideoSegmenter.segmentVideo D).length),
        i + 1 < (VideoSegmenter.segmentVideo D).length →
        ((VideoSegmenter.segmentVideo D).get ⟨i, h1⟩).duration = 5)
    ∧ (∀ h : VideoSegmenter.segmentVideo D ≠ [],
        ((VideoSegmenter.segmentVideo D).getLast h).duration
          = D - 5 * (((⌈D / 5⌉ : ℤ) : ℚ) - 1)) := by
  have hcast := ceil_cast_toNat D (by positivity)
  have hDle := le_five_mul_ceil D
  have hlt := five_mul_ceil_sub_one_lt D
  have hmin : ∀ i : Nat, i + 1 < (⌈D / 5⌉).toNat →
      min (((i : ℚ) + 1) * 5) D = ((i : ℚ) + 1) * 5 := by
    intro i hi
    refine min_eq_left ?_
    have h2 : ((i + 2 : ℕ) : ℚ) ≤ (((⌈D / 5⌉).toNat : ℕ) : ℚ) :=
      (Nat.cast_le (α := ℚ)).mpr hi
    rw [hcast] at h2
    push_cast at h2
    nlinarith
  refine ⟨segmentVideo_length D, ?_, ?_, ?_, ?_⟩
  · intro i h
    rw [List.get_eq_getElem, segmentVideo_getElem]
  · intro i h1 h2
    rw [List.get_eq_getElem, List.get_eq_getElem, segmentVideo_getElem,
      segmentVideo_getElem]
    have hi : i + 1 < (⌈D / 5⌉).toNat := by
      rw [← segmentVideo_length D]
      exact h2
    show ((i + 1 : ℕ) : ℚ) * 5 = min (((i : ℚ) + 1) * 5) D
    rw [hmin i hi]
    push_cast
    ring
  · intro i h1 h2
    rw [List.get_eq_getElem, segmentVideo_getElem]
    have hi : i + 1 < (⌈D / 5⌉).toNat := by
      rw [← segmentVideo_length D]
      exact h2
    show min (((i : ℚ) + 1) * 5) D - (i : ℚ) * 5 = 5
    rw [hmin i hi]
    ring
  · intro h
    have hpos : 0 < (VideoSegmenter.segmentVideo D).length := List.length_pos.mpr h
    have hn1 : 1 ≤ (⌈D / 5⌉).toNat := by
      rw [← segmentVideo_length D]
      exact hpos
    rw [List.getLast_eq_getElem, segmentVideo_getElem]
    rw [segmentVideo_length D]
    have hc1 : (((⌈D / 5⌉).toNat - 1 : ℕ) : ℚ) = ((⌈D / 5⌉ : ℤ) : ℚ) - 1 := by
      rw [Nat.cast_sub hn1, hcast]
      push_cast
      ring
    rw [hc1]
    have hminr : min ((((⌈D / 5⌉ : ℤ) : ℚ) - 1 + 1) * 5) D = D := by
      refine min_eq_right ?_
      have hr : (((⌈D / 5⌉ : ℤ) : ℚ) - 1 + 1) * 5 = 5 * ((⌈D / 5⌉ : ℤ) : ℚ) := by ring
      rw [hr]
      exact hDle
    rw [hminr]
    ring

/-- C5 witness: a 47-second video yields ten 5-second segments. -/
theorem segmentVideo_spec_witness :
    (VideoSegmenter.segmentVideo 47).length = 10 := by
  have h := (segmentVideo_segmentation_spec 47 (by norm_num)).1
  rw [h]
  have hb : ⌈(47:ℚ) / 5⌉ = 10 := by norm_num [Int.ceil_eq_iff]
  rw [hb]
  rfl

/-- C10: the planning stage persists ceil(D/30) as the expected segment
count (30-second planning length) while the segmenter actually creates
ceil(D/5) segments (5-second segments), so whenever those ceilings differ
the persisted segmentCount does not equal the number of Segment records
created. -/
theorem planned_vs_actual_segment_count (D : ℚ) (hD : 5 < D) :
    AnalysisTrigger.segmentCount D = (⌈D / 30⌉).toNat
    ∧ (VideoSegmenter.segmentVideo D).length = (⌈D / 5⌉).toNat
    ∧ (⌈D / 30⌉ ≠ ⌈D / 5⌉ →
        AnalysisTrigger.segmentCount D ≠ (VideoSegmenter.segmentVideo D).length) := by
  have hD0 : 0 < D := by linarith
  refine ⟨rfl, segmentVideo_length D, ?_⟩
  intro hne heq
  have h30 : 0 < ⌈D / 30⌉ := Int.ceil_pos.mpr (by positivity)
  have h5 : 0 < ⌈D / 5⌉ := Int.ceil_pos.mpr (by positivity)
  have heq2 : (⌈D / 30⌉).toNat = (⌈D / 5⌉).toNat := by
    have h1 : AnalysisTrigger.segmentCount D = (⌈D / 30⌉).toNat := rfl
    rw [← h1, heq, segmentVideo_length D]
  omega

/-- C10 witness: at 47 seconds the planner persists 2 while the segmenter
creates 10 segments. -/
theorem planned_vs_actual_witness :
    AnalysisTrigger.segmentCount 47 ≠ (VideoSegmenter.segmentVideo 47).length := by
  refine (planned_vs_actual_segment_count 47 (by norm_num)).2.2 ?_
  have ha : ⌈(47:ℚ) / 30⌉ = 2 := by norm_num [Int.ceil_eq_iff]
  have hb : ⌈(47:ℚ) / 5⌉ = 10 := by norm_num [Int.ceil_eq_iff]
  rw [ha, hb]
  norm_num


/-- C9: evaluation of the visual-service call loop. A non-retryable HTTP
400 response is not failed immediately: the thrown error is swallowed by
the catch block whenever attempts remain, so the call makes all three
attempts with no backoff delay between them, contradicting the stated
policy (and the comment in the source saying a non-retryable error is
thrown at once). A retryable HTTP 500 response is retried with
exponential backoff delays of 2000 and 4000 milliseconds up to the
three-attempt ceiling. -/
theorem visual_retry_policy_eval :
    SelfHostedVisualAnalyzer.callVisualAnalysisService
        (fun _ => SelfHostedVisualAnalyzer.SvcResponse.httpErr 400 txtBadRequest txtBadRequest)
      = { succeeded := false, attemptsMade := 3, delays := [] }
    ∧ SelfHostedVisualAnalyzer.callVisualAnalysisService
        (fun _ => SelfHostedVisualAnalyzer.SvcResponse.httpErr 500 txtInternalErr txtInternalErr)
      = { succeeded := false, attemptsMade := 3, delays := [2000, 4000] } := by
  constructor <;> decide


-- Helper lemmas for the progress contract (C8).

theorem jsRound_mono {q r : ℚ} (h : q ≤ r) : jsRound q ≤ jsRound r :=
  Int.floor_le_floor (by linarith)

theorem batchProgress_zero (b : Nat) : AnalysisTrigger.batchProgress 0 b = 70 := by
  simp [AnalysisTrigger.batchProgress, jsRound]
  norm_num

theorem batchProgress_mono_le (b : Nat) {a c : Nat} (h : a ≤ c) :
    AnalysisTrigger.batchProgress a b ≤ AnalysisTrigger.batchProgress c b := by
  unfold AnalysisTrigger.batchProgress
  have harg : ((a : ℚ)) / b * 25 ≤ ((c : ℚ)) / b * 25 := by
    rcases Nat.eq_zero_or_pos b with hb | hb
    · subst hb
      simp
    · have hb0 : (0:ℚ) < (b:ℚ) := by exact_mod_cast hb
      have hac : (a:ℚ) ≤ (c:ℚ) := by exact_mod_cast h
      gcongr
  exact add_le_add_left (jsRound_mono harg) 70

theorem batchProgress_le_95 (b k : Nat) (hk : k < b) :
    AnalysisTrigger.batchProgress k b ≤ 95 := by
  unfold AnalysisTrigger.batchProgress
  have hb0 : (0:ℚ) < (b:ℚ) := by exact_mod_cast lt_of_le_of_lt (Nat.zero_le k) hk
  have h1 : (k:ℚ) / b ≤ 1 := by
    rw [div_le_one hb0]
    exact_mod_cast le_of_lt hk
  have harg : (k:ℚ) / b * 25 + 1/2 < 26 := by nlinarith
  have hfl : jsRound ((k:ℚ) / b * 25) < 26 := by
    unfold jsRound
    exact Int.floor_lt.mpr (by exact_mod_cast harg)
  omega

theorem filterMap_some_batch (b : Nat) (l : List Nat) :
    List.filterMap
        ((fun u : AnalysisTrigger.VideoDocUpdate => u.analysisProgress) ∘
          fun chunkIndex =>
            { analysisProgress := some (AnalysisTrigger.batchProgress chunkIndex b)
              currentStep := none, stepDetails := some AnalysisTrigger.detBatch }) l
      = l.map (fun k => AnalysisTrigger.batchProgress k b) := by
  induction l with
  | nil => rfl
  | cons a t ih => simp only [List.filterMap_cons, Function.comp, List.map_cons, ih]

theorem analysisProgressList (b : Nat) (fs : String) :
    (AnalysisTrigger.analysisUpdates b fs).filterMap (fun u => u.analysisProgress) =
      [0, 5, 10, 15, 18, 20, 25, 35, 40, 45, 60, 65, 70, 70]
        ++ ((List.range b).map (fun k => AnalysisTrigger.batchProgress k b) ++ [100]) := by
  simp only [AnalysisTrigger.analysisUpdates, AnalysisTrigger.stageUpdates,
    List.filterMap_append, List.filterMap_cons, List.filterMap_map, List.filterMap_nil]
  rw [filterMap_some_batch, List.append_assoc]

/-- C8 counterexample: the run with one batch contains a persisted update
carrying analysisProgress 40 with neither a currentStep nor a stepDetails
value, so not every progress persist is paired with a step description. -/
theorem analysis_progress_unlabeled_persist :
    ¬ (∀ u ∈ AnalysisTrigger.analysisUpdates 1 stAnalysisComplete,
        (u.analysisProgress).isSome = true →
          (u.currentStep).isSome = true ∨ (u.stepDetails).isSome = true) := by
  intro hall
  have h := hall
    { analysisProgress := some 40, currentStep := none, stepDetails := none }
    (by simp [AnalysisTrigger.analysisUpdates, AnalysisTrigger.stageUpdates]) (by simp)
  simp at h


theorem stageUpdates_paired :
    ∀ u ∈ AnalysisTrigger.stageUpdates,
      (u.analysisProgress).isSome = true →
      (u.currentStep).isSome = true ∨ (u.stepDetails).isSome = true
        ∨ u.analysisProgress = some 40 ∨ u.analysisProgress = some 60
        ∨ u.analysisProgress = some 70 := by
  decide

/-- C8 (corrected): within one successful run the persisted
analysisProgress values are monotonically non-decreasing from the first
persist to the final 100 percent, and every persisted update carrying a
progress value also carries a step description (currentStep or
stepDetails), except the three bare progress persists at 40, 60 and 70,
which update only the progress value. -/
theorem analysis_progress_monotone (numBatches : Nat) (hb : 0 < numBatches)
    (fs : String) :
    List.Chain' (· ≤ ·) ((AnalysisTrigger.analysisUpdates numBatches fs).filterMap
        (fun u => u.analysisProgress))
    ∧ ((AnalysisTrigger.analysisUpdates numBatches fs).filterMap
        (fun u => u.analysisProgress)).getLast? = some 100
    ∧ (∀ u ∈ AnalysisTrigger.analysisUpdates numBatches fs,
        (u.analysisProgress).isSome = true →
        (u.currentStep).isSome = true ∨ (u.stepDetails).isSome = true
          ∨ u.analysisProgress = some 40 ∨ u.analysisProgress = some 60
          ∨ u.analysisProgress = some 70) := by
  obtain ⟨b, rfl⟩ : ∃ b, numBatches = b + 1 := ⟨numBatches - 1, by omega⟩
  refine ⟨?_, ?_, ?_⟩
  · rw [analysisProgressList, List.chain'_append, List.chain'_append]
    refine ⟨by norm_num [List.chain'_cons], ⟨?_, by simp, ?_⟩, ?_⟩
    · have hc : List.Chain' (fun a c : Nat => a ≤ c) (List.range (b + 1)) :=
        (List.chain'_range_succ (fun a c : Nat => a ≤ c) b).mpr (fun m _ => Nat.le_succ m)
      exact List.chain'_map_of_chain' _
        (fun a c hac => batchProgress_mono_le (b + 1) hac) hc
    · intro x hx y hy
      rw [List.range_succ, List.map_append] at hx
      simp only [List.map_cons, List.map_nil, List.getLast?_concat,
        Option.mem_def, Option.some.injEq] at hx
      simp only [List.head?_cons, Option.mem_def, Option.some.injEq] at hy
      subst hx
      subst hy
      have := batchProgress_le_95 (b + 1) b (Nat.lt_succ_self b)
      omega
    · intro x hx y hy
      simp only [List.getLast?_cons_cons, List.getLast?_singleton,
        Option.mem_def, Option.some.injEq] at hx
      rw [List.range_succ_eq_map, List.map_cons, List.cons_append,
        List.head?_cons] at hy
      simp only [Option.mem_def, Option.some.injEq] at hy
      subst hx
      subst hy
      rw [batchProgress_zero]
  · rw [analysisProgressList, List.getLast?_append_of_ne_nil _ (by simp),
      List.getLast?_append_of_ne_nil _ (by simp)]
    rfl
  · simp only [AnalysisTrigger.analysisUpdates]
    rw [List.forall_mem_append, List.forall_mem_append]
    constructor
    · constructor
      · exact stageUpdates_paired
      · intro u hu
        obtain ⟨k, hk, rfl⟩ := List.mem_map.mp hu
        simp
    · intro u hu
      rw [List.mem_singleton] at hu
      subst hu
      simp

/-- C8 witness: the corrected monotonicity at a one-batch run. -/
theorem analysis_progress_monotone_witness :
    List.Chain' (· ≤ ·) ((AnalysisTrigger.analysisUpdates 1 stAnalysisComplete).filterMap
        (fun u => u.analysisProgress)) :=
  (analysis_progress_monotone 1 (by norm_num) stAnalysisComplete).1

end Clipov
